import Mathlib

/-!
Shallow embedding of the BusTub buffer pool core: the LRU-K replacer
(src/buffer/lru_k_replacer.cpp), the buffer pool manager
(src/buffer/buffer_pool_manager.cpp) and the page guards
(src/storage/page/page_guard.cpp).

Machine integers are modelled as `Nat`/`Int`; the few `throw` sites of the
C++ code are modelled with `Except`.  The process-global timestamp counter
`time_base_line` is a field of the replacer state and every C++ method that
mutates `*this` becomes a state-passing function.
-/

namespace Bustub

abbrev FrameId := Nat

abbrev PageId := Int

def INVALID_PAGE_ID : PageId := -1

/-- `INF_DISTANCE = std::numeric_limits<size_t>::max()` from lru_k_replacer.cpp. -/
def INF_DISTANCE : Nat := 2 ^ 64 - 1

/-- The fatal errors the core can `throw` (all are `ExecutionException` in C++):
`invalidFrameId` from `LRUKReplacer::RecordAccess`, `emptyHistory` from
`LRUKNode::FirstTime`, `noFreeFrame` from the "impossible, must have free
frame" checks in `BufferPoolManager::NewPage`/`FetchPage`. -/
inductive BTError where
  | invalidFrameId
  | emptyHistory
  | noFreeFrame
  deriving DecidableEq

/-- Per-frame record of the replacer: the bounded history of the last `≤ k`
access timestamps (oldest first, as the C++ `std::deque` pushed at the back
and popped at the front) and the evictable flag.  The header
(lru_k_replacer.h, not part of the sources) default-initializes the
evictable flag; per the spec a fresh record is non-evictable (I3: frames
become evictable only through `set_evictable`). -/
structure LRUKNode where
  fid : FrameId
  k : Nat
  history : List Nat := []
  is_evictable : Bool := false
  deriving DecidableEq

/-- `LRUKNode::GetDistance`: `INF_DISTANCE` when the history holds fewer than
`k` accesses, `0` otherwise. -/
def LRUKNode.GetDistance (n : LRUKNode) : Nat :=
  if n.history.length < n.k then INF_DISTANCE else 0

/-- `LRUKNode::FirstTime`: front of the history; throws when the history is
empty. -/
def LRUKNode.FirstTime (n : LRUKNode) : Except BTError Nat :=
  match n.history with
  | [] => .error .emptyHistory
  | t :: _ => .ok t

/-- `LRUKNode::Add` with the fresh timestamp already drawn: `push_back`, then
`pop_front` when the history exceeds `k`. -/
def LRUKNode.Add (n : LRUKNode) (timestamp : Nat) : LRUKNode :=
  let h := n.history ++ [timestamp]
  { n with history := if n.k < h.length then h.tail else h }

/-- `LRUKNode::SetEvictable`. -/
def LRUKNode.SetEvictable (n : LRUKNode) (b : Bool) : LRUKNode :=
  { n with is_evictable := b }

/-- Association-list lookup, the map read shared by `node_store_`,
`page_table_` and the modelled disk. -/
def alookup {α β : Type} [BEq α] (k : α) : List (α × β) → Option β
  | [] => none
  | (a, b) :: t => if a == k then some b else alookup k t

/-- Association-list insert-or-overwrite (`map[k] = v`). -/
def aset {α β : Type} [BEq α] (l : List (α × β)) (k : α) (v : β) :
    List (α × β) :=
  (l.filter (fun p => p.1 != k)) ++ [(k, v)]

/-- Association-list erase (`map.erase k`). -/
def aerase {α β : Type} [BEq α] (l : List (α × β)) (k : α) :
    List (α × β) :=
  l.filter (fun p => p.1 != k)

/-- An entry of the replacer's ordered index `st_`:
`(distance, first_timestamp, frame_id)`. -/
abbrev Tup := Nat × Nat × FrameId

/-- Strict lexicographic order on index entries, the `std::less<tuple>` of the
C++ `std::set`. -/
def tupLt (a b : Tup) : Bool :=
  decide (a.1 < b.1) ||
    (decide (a.1 = b.1) &&
      (decide (a.2.1 < b.2.1) || (decide (a.2.1 = b.2.1) && decide (a.2.2 < b.2.2))))

/-- The greatest entry of a non-empty collection of index entries: the element
`*(--st_.end())` of the sorted `std::set`. -/
def stMax (hd : Tup) (tl : List Tup) : Tup :=
  tl.foldl (fun m x => if tupLt m x then x else m) hd

/-- `st_.insert`: a `std::set` insert is a no-op on a present element. -/
def stInsert (l : List Tup) (t : Tup) : List Tup :=
  if l.contains t then l else l ++ [t]

/-- `st_.erase` of one element value. -/
def stErase (l : List Tup) (t : Tup) : List Tup :=
  l.filter (fun x => x != t)

/-- `node_store_` lookup (`count`/`operator[]` on the `std::unordered_map`). -/
def storeLookup (l : List (FrameId × LRUKNode)) (f : FrameId) : Option LRUKNode :=
  alookup f l

/-- `node_store_[f] = n` (insert or overwrite). -/
def storeSet (l : List (FrameId × LRUKNode)) (f : FrameId) (n : LRUKNode) :
    List (FrameId × LRUKNode) :=
  aset l f n

/-- `node_store_.erase f`. -/
def storeErase (l : List (FrameId × LRUKNode)) (f : FrameId) :
    List (FrameId × LRUKNode) :=
  aerase l f

/-- State of `LRUKReplacer`: `replacer_size_`, `k_`, the per-frame records
`node_store_`, the ordered index `st_` of evictable frames, and the (in C++
process-global) timestamp counter `time_base_line`. -/
structure LRUKReplacer where
  replacer_size : Nat
  k : Nat
  node_store : List (FrameId × LRUKNode) := []
  st : List Tup := []
  time_base_line : Nat := 0
  deriving DecidableEq

/-- The index key `(GetDistance, FirstTime, frame_id)` of a node; propagates
the `FirstTime` throw. -/
def nodeTuple (n : LRUKNode) (f : FrameId) : Except BTError Tup :=
  match n.FirstTime with
  | .error e => .error e
  | .ok ft => .ok (n.GetDistance, ft, f)

/-- `LRUKReplacer::Evict`: when the index is non-empty, remove its greatest
entry `*(--st_.end())`, return that frame and erase its record; otherwise
report failure (`none`). -/
def LRUKReplacer.Evict (r : LRUKReplacer) : Option FrameId × LRUKReplacer :=
  match r.st with
  | [] => (none, r)
  | hd :: tl =>
    let m := stMax hd tl
    (some m.2.2, { r with st := stErase r.st m, node_store := storeErase r.node_store m.2.2 })

/-- `LRUKReplacer::RecordAccess`: throw `invalidFrameId` when
`frame_id > replacer_size_`; create the record if absent, else erase its old
index entry; append a fresh timestamp (dropping the oldest past `k`); when the
record is evictable, re-insert it under the new key. -/
def LRUKReplacer.RecordAccess (r : LRUKReplacer) (f : FrameId) :
    Except BTError LRUKReplacer :=
  if r.replacer_size < f then .error .invalidFrameId
  else
    let step : Except BTError (LRUKNode × List Tup) :=
      match storeLookup r.node_store f with
      | none => .ok ({ fid := f, k := r.k }, r.st)
      | some n =>
        match nodeTuple n f with
        | .error e => .error e
        | .ok tp => .ok (n, stErase r.st tp)
    match step with
    | .error e => .error e
    | .ok (n0, st1) =>
      let t := r.time_base_line + 1
      let n1 := n0.Add t
      if n1.is_evictable then
        match nodeTuple n1 f with
        | .error e => .error e
        | .ok tp =>
          .ok { r with node_store := storeSet r.node_store f n1,
                       st := stInsert st1 tp,
                       time_base_line := t }
      else
        .ok { r with node_store := storeSet r.node_store f n1,
                     st := st1,
                     time_base_line := t }

/-- `LRUKReplacer::SetEvictable`: no-op when the frame is untracked or the
flag is unchanged; otherwise recompute the key, flip the flag, and insert into
or erase from the index. -/
def LRUKReplacer.SetEvictable (r : LRUKReplacer) (f : FrameId) (se : Bool) :
    Except BTError LRUKReplacer :=
  match storeLookup r.node_store f with
  | none => .ok r
  | some n =>
    if n.is_evictable == se then .ok r
    else
      match nodeTuple n f with
      | .error e => .error e
      | .ok tp =>
        .ok { r with node_store := storeSet r.node_store f (n.SetEvictable se),
                     st := if se then stInsert r.st tp else stErase r.st tp }

/-- `LRUKReplacer::Remove`: no-op when untracked; erase the record and its
index entry only when it is evictable. -/
def LRUKReplacer.Remove (r : LRUKReplacer) (f : FrameId) :
    Except BTError LRUKReplacer :=
  match storeLookup r.node_store f with
  | none => .ok r
  | some n =>
    if n.is_evictable then
      match nodeTuple n f with
      | .error e => .error e
      | .ok tp =>
        .ok { r with st := stErase r.st tp, node_store := storeErase r.node_store f }
    else .ok r

/-- `LRUKReplacer::Size`: the number of evictable (indexed) entries. -/
def LRUKReplacer.Size (r : LRUKReplacer) : Nat :=
  r.st.length

/-- A frame of the pool: the `Page` object of the frame array.  The `Page`
class itself lives in a header outside the sources; its fields
(`page_id_`, `pin_count_`, `is_dirty_`, `data_`) and `ResetMemory` are used
directly by buffer_pool_manager.cpp, and per the spec (§3, Frame) it also
carries a reader/writer latch, modelled as a reader count plus a writer flag.
The fixed-size byte array `data_` is abstracted to a single `Nat` value;
`ResetMemory` zeroes it. -/
structure Page where
  page_id : PageId := INVALID_PAGE_ID
  pin_count : Nat := 0
  is_dirty : Bool := false
  data : Nat := 0
  readers : Nat := 0
  writer : Bool := false
  deriving DecidableEq

/-- `Page::ResetMemory`: zero the byte array (metadata untouched). -/
def Page.ResetMemory (p : Page) : Page :=
  { p with data := 0 }

/-- Modelled from the spec: the per-frame reader/writer latch (§3).
`RLatch` acquires a shared lock. -/
def Page.RLatch (p : Page) : Page :=
  { p with readers := p.readers + 1 }

/-- Modelled from the spec: `RUnlatch` releases one shared lock. -/
def Page.RUnlatch (p : Page) : Page :=
  { p with readers := p.readers - 1 }

/-- Modelled from the spec: `WLatch` acquires the exclusive lock. -/
def Page.WLatch (p : Page) : Page :=
  { p with writer := true }

/-- Modelled from the spec: `WUnlatch` releases the exclusive lock. -/
def Page.WUnlatch (p : Page) : Page :=
  { p with writer := false }

/-- `page_table_` lookup (`count` / `operator[]`). -/
def ptLookup (l : List (PageId × FrameId)) (pid : PageId) : Option FrameId :=
  alookup pid l

/-- `page_table_[pid] = f` (insert or overwrite). -/
def ptSet (l : List (PageId × FrameId)) (pid : PageId) (f : FrameId) :
    List (PageId × FrameId) :=
  aset l pid f

/-- `page_table_.erase pid`. -/
def ptErase (l : List (PageId × FrameId)) (pid : PageId) :
    List (PageId × FrameId) :=
  aerase l pid

/-- Modelled from the spec: the disk manager (§6) is an external collaborator
with synchronous `write_page`; the disk is a map from page id to page bytes. -/
def diskWrite (d : List (PageId × Nat)) (pid : PageId) (v : Nat) :
    List (PageId × Nat) :=
  aset d pid v

/-- Modelled from the spec: `read_page` fills the buffer from the disk map;
never-written pages read as zeroes (the in-memory disk manager of the tests). -/
def diskRead (d : List (PageId × Nat)) (pid : PageId) : Nat :=
  (alookup pid d).getD 0

/-- State of `BufferPoolManager`: the frame array `pages_`, the page table,
the free list, the owned replacer, the page-id allocator counter
`next_page_id_`, and the attached disk. -/
structure BufferPoolManager where
  pool_size : Nat
  pages : List Page
  page_table : List (PageId × FrameId) := []
  free_list : List FrameId := []
  replacer : LRUKReplacer
  next_page_id : PageId := 0
  disk : List (PageId × Nat) := []
  deriving DecidableEq

/-- `pages_[f]`, the frame array read (frames are always accessed in range by
the manager; out-of-range reads default). -/
def pageOf (b : BufferPoolManager) (f : FrameId) : Page :=
  b.pages.getD f {}

/-- In-place update of `pages_[f]`. -/
def updPage (b : BufferPoolManager) (f : FrameId) (u : Page → Page) :
    BufferPoolManager :=
  { b with pages := b.pages.set f (u (pageOf b f)) }

/-- `BufferPoolManager::AllocatePage`: `next_page_id_++`. -/
def BufferPoolManager.AllocatePage (b : BufferPoolManager) :
    PageId × BufferPoolManager :=
  (b.next_page_id, { b with next_page_id := b.next_page_id + 1 })

/-- Modelled from the spec: `deallocate_page` is "a no-op hook reserved for
the id allocator" (§4.2); its body is not in the sources. -/
def BufferPoolManager.DeallocatePage (b : BufferPoolManager) (_pid : PageId) :
    BufferPoolManager :=
  b

/-- `BufferPoolManager::FlushPage`: `false` when the page is not in the page
table; otherwise write the hosting frame's bytes to disk unconditionally and
clear its dirty flag. -/
def BufferPoolManager.FlushPage (b : BufferPoolManager) (pid : PageId) :
    Bool × BufferPoolManager :=
  match ptLookup b.page_table pid with
  | none => (false, b)
  | some f =>
    let b1 := { b with disk := diskWrite b.disk pid (pageOf b f).data }
    (true, updPage b1 f (fun p => { p with is_dirty := false }))

/-- The frame-acquisition block shared verbatim by `NewPage` (lines 53-69) and
`FetchPage` (lines 93-109): pop the free list if non-empty, else evict; if the
victim's page is dirty, `FlushPage` it; erase its page-table entry; reset the
frame's memory and metadata.  Throws `noFreeFrame` when eviction fails despite
the caller's earlier check. -/
def BufferPoolManager.getVictimFrame (b : BufferPoolManager) :
    Except BTError (FrameId × BufferPoolManager) :=
  match b.free_list with
  | f :: rest => .ok (f, { b with free_list := rest })
  | [] =>
    match b.replacer.Evict with
    | (none, _) => .error .noFreeFrame
    | (some f, r') =>
      let b1 := { b with replacer := r' }
      let b2 := if (pageOf b1 f).is_dirty then (b1.FlushPage (pageOf b1 f).page_id).2 else b1
      let b3 := { b2 with page_table := ptErase b2.page_table (pageOf b2 f).page_id }
      let b4 := updPage b3 f (fun p =>
        { p.ResetMemory with page_id := INVALID_PAGE_ID, pin_count := 0, is_dirty := false })
      .ok (f, b4)

/-- `BufferPoolManager::NewPage`: `none` when the pool is full and nothing is
evictable; otherwise acquire a frame, allocate a fresh page id, install the
mapping with `pin_count = 1`, record the access and pin it in the replacer.
Returns the allocated page id and the hosting frame. -/
def BufferPoolManager.NewPage (b : BufferPoolManager) :
    Except BTError (Option (PageId × FrameId) × BufferPoolManager) :=
  if b.page_table.length = b.pool_size ∧ b.replacer.Size = 0 then .ok (none, b)
  else
    match b.getVictimFrame with
    | .error e => .error e
    | .ok (f, b4) =>
      let (aloc, b5) := b4.AllocatePage
      let b6 := { b5 with page_table := ptSet b5.page_table aloc f }
      let b7 := updPage b6 f (fun p => { p with page_id := aloc, pin_count := 1 })
      match b7.replacer.RecordAccess f with
      | .error e => .error e
      | .ok r1 =>
        match r1.SetEvictable f false with
        | .error e => .error e
        | .ok r2 => .ok (some (aloc, f), { b7 with replacer := r2 })

/-- `BufferPoolManager::FetchPage`: on a hit, increment the pin count, mark
the frame non-evictable and return it (no `RecordAccess`); on a miss, check
for exhaustion / a negative id, acquire a frame as in `NewPage`, read the page
from disk, install the mapping with `pin_count = 1`, record the access and pin
it. -/
def BufferPoolManager.FetchPage (b : BufferPoolManager) (pid : PageId) :
    Except BTError (Option FrameId × BufferPoolManager) :=
  match ptLookup b.page_table pid with
  | some f =>
    let b1 := updPage b f (fun p => { p with pin_count := p.pin_count + 1 })
    match b1.replacer.SetEvictable f false with
    | .error e => .error e
    | .ok r' => .ok (some f, { b1 with replacer := r' })
  | none =>
    if (b.page_table.length = b.pool_size ∧ b.replacer.Size = 0) ∨ pid < 0 then
      .ok (none, b)
    else
      match b.getVictimFrame with
      | .error e => .error e
      | .ok (f, b4) =>
        let b5 := updPage b4 f (fun p => { p with data := diskRead b4.disk pid })
        let b6 := { b5 with page_table := ptSet b5.page_table pid f }
        let b7 := updPage b6 f (fun p => { p with page_id := pid, pin_count := 1 })
        match b7.replacer.RecordAccess f with
        | .error e => .error e
        | .ok r1 =>
          match r1.SetEvictable f false with
          | .error e => .error e
          | .ok r2 => .ok (some f, { b7 with replacer := r2 })

/-- `BufferPoolManager::UnpinPage`: `false` when the page is not resident or
its pin count is already `0`; otherwise decrement the pin, mark the frame
evictable when the count reaches `0`, and OR-fold `is_dirty` into the frame's
dirty flag. -/
def BufferPoolManager.UnpinPage (b : BufferPoolManager) (pid : PageId)
    (is_dirty : Bool) : Except BTError (Bool × BufferPoolManager) :=
  match ptLookup b.page_table pid with
  | none => .ok (false, b)
  | some f =>
    if (pageOf b f).pin_count ≤ 0 then .ok (false, b)
    else
      let b1 := updPage b f (fun p => { p with pin_count := p.pin_count - 1 })
      match (if (pageOf b1 f).pin_count = 0
             then b1.replacer.SetEvictable f true
             else .ok b1.replacer) with
      | .error e => .error e
      | .ok r' =>
        let b2 := { b1 with replacer := r' }
        .ok (true, updPage b2 f (fun p => { p with is_dirty := p.is_dirty || is_dirty }))

/-- `BufferPoolManager::DeletePage`: refuse (`false`) when resident and
pinned; vacuously succeed (`true`) when not resident; otherwise remove the
frame from the replacer, return it to the free list, reset its memory and
metadata, erase the page-table entry and call the `DeallocatePage` hook. -/
def BufferPoolManager.DeletePage (b : BufferPoolManager) (pid : PageId) :
    Except BTError (Bool × BufferPoolManager) :=
  match ptLookup b.page_table pid with
  | some f =>
    if 0 < (pageOf b f).pin_count then .ok (false, b)
    else
      match b.replacer.Remove f with
      | .error e => .error e
      | .ok r' =>
        let b1 := { b with replacer := r', free_list := b.free_list ++ [f] }
        let b2 := updPage b1 f (fun p =>
          { p.ResetMemory with page_id := INVALID_PAGE_ID, pin_count := 0, is_dirty := false })
        .ok (true, BufferPoolManager.DeallocatePage
          { b2 with page_table := ptErase b2.page_table pid } pid)
  | none => .ok (true, b)

/-- `BasicPageGuard`: the manager pointer (`bpm_ != nullptr` modelled as a
flag), the held frame (`page_` points into the frame array, so it is the
frame index), and the guard's dirty flag. -/
structure BasicPageGuard where
  has_bpm : Bool := false
  page : Option FrameId := none
  is_dirty : Bool := false
  deriving DecidableEq

/-- `BasicPageGuard::CLear`: null both pointers and clear the dirty flag. -/
def BasicPageGuard.CLear (_g : BasicPageGuard) : BasicPageGuard :=
  {}

/-- `BasicPageGuard::Drop`: when both the manager and the page are held,
`UnpinPage(page_->GetPageId(), is_dirty_)` (its `bool` result is ignored);
always `CLear` afterwards.  The destructor `~BasicPageGuard` also calls
`Drop`. -/
def BasicPageGuard.Drop (g : BasicPageGuard) (b : BufferPoolManager) :
    Except BTError (BasicPageGuard × BufferPoolManager) :=
  match g.has_bpm, g.page with
  | true, some f =>
    match b.UnpinPage (pageOf b f).page_id g.is_dirty with
    | .error e => .error e
    | .ok (_, b') => .ok (g.CLear, b')
  | _, _ => .ok (g.CLear, b)

/-- `BasicPageGuard::operator=(BasicPageGuard &&that)` in the aliased case
`&that == this`: the `if (this != &that)` guard makes it a no-op. -/
def BasicPageGuard.MoveAssignSelf (g : BasicPageGuard) (b : BufferPoolManager) :
    BasicPageGuard × BufferPoolManager :=
  (g, b)

/-- `ReadPageGuard`: wraps a `BasicPageGuard`. -/
structure ReadPageGuard where
  guard : BasicPageGuard
  deriving DecidableEq

/-- `ReadPageGuard::Drop`: return immediately when no page is held; otherwise
`RUnlatch` the page, then delegate to the basic guard's `Drop`.  The
destructor `~ReadPageGuard` also calls `Drop`. -/
def ReadPageGuard.Drop (g : ReadPageGuard) (b : BufferPoolManager) :
    Except BTError (ReadPageGuard × BufferPoolManager) :=
  match g.guard.page with
  | none => .ok (g, b)
  | some f =>
    let b1 := updPage b f Page.RUnlatch
    match g.guard.Drop b1 with
    | .error e => .error e
    | .ok (g', b2) => .ok (⟨g'⟩, b2)

/-- `ReadPageGuard::operator=(ReadPageGuard &&that)` in the aliased case
`&that == this`: `Drop()` runs unconditionally (there is no self-assignment
check), then `guard_ = std::move(that.guard_)` assigns the member to itself,
which the basic guard's `this != &that` check turns into a no-op. -/
def ReadPageGuard.MoveAssignSelf (g : ReadPageGuard) (b : BufferPoolManager) :
    Except BTError (ReadPageGuard × BufferPoolManager) :=
  match g.Drop b with
  | .error e => .error e
  | .ok (g1, b1) =>
    let (g2, b2) := g1.guard.MoveAssignSelf b1
    .ok (⟨g2⟩, b2)

/-- `WritePageGuard`: wraps a `BasicPageGuard`. -/
structure WritePageGuard where
  guard : BasicPageGuard
  deriving DecidableEq

/-- `WritePageGuard::Drop`: return immediately when no page is held; otherwise
`WUnlatch` the page, then delegate to the basic guard's `Drop`.  The
destructor `~WritePageGuard` also calls `Drop`. -/
def WritePageGuard.Drop (g : WritePageGuard) (b : BufferPoolManager) :
    Except BTError (WritePageGuard × BufferPoolManager) :=
  match g.guard.page with
  | none => .ok (g, b)
  | some f =>
    let b1 := updPage b f Page.WUnlatch
    match g.guard.Drop b1 with
    | .error e => .error e
    | .ok (g', b2) => .ok (⟨g'⟩, b2)

/-- `WritePageGuard::operator=(WritePageGuard &&that)` in the aliased case
`&that == this`: as for the read guard, `Drop()` runs first and the inner
member self-assignment is a no-op. -/
def WritePageGuard.MoveAssignSelf (g : WritePageGuard) (b : BufferPoolManager) :
    Except BTError (WritePageGuard × BufferPoolManager) :=
  match g.Drop b with
  | .error e => .error e
  | .ok (g1, b1) =>
    let (g2, b2) := g1.guard.MoveAssignSelf b1
    .ok (⟨g2⟩, b2)

/-- Well-formedness of the replacer records used as a hypothesis below: every
stored node has a non-empty access history (so `FirstTime` cannot throw) —
true of every reachable state, since a record is created together with its
first recorded access and histories never shrink to empty for `k ≥ 1`. -/
def storeHistWF (r : LRUKReplacer) : Bool :=
  r.node_store.all (fun p => !p.2.history.isEmpty)

/-- Stronger well-formedness for `RecordAccess`: additionally every stored
node carries the replacer's own `k` (as built by `LRUKNode(frame_id, k_)`). -/
def storeKWF (r : LRUKReplacer) : Bool :=
  r.node_store.all (fun p => p.2.k == r.k && !p.2.history.isEmpty)

section AListLemmas

variable {α β : Type} [BEq α] [LawfulBEq α]

theorem alookup_filterNe_self (l : List (α × β)) (k : α) :
    alookup k (l.filter (fun p => p.1 != k)) = none := by
  induction l with
  | nil => rfl
  | cons hd tl ih =>
    obtain ⟨a, b⟩ := hd
    by_cases h : a = k
    · subst h
      simp only [List.filter_cons, bne_self_eq_false, cond_false, if_neg,
        Bool.false_eq_true, not_false_iff]
      exact ih
    · have hb : (a == k) = false := beq_eq_false_iff_ne.mpr h
      have hbn : ((a, b).1 != k) = true := by simp [bne, hb]
      simp only [List.filter_cons, hbn, if_pos]
      simpa [alookup, hb] using ih

theorem alookup_filterNe_ne (l : List (α × β)) (k k' : α) (h : ¬ k' = k) :
    alookup k' (l.filter (fun p => p.1 != k)) = alookup k' l := by
  induction l with
  | nil => rfl
  | cons hd tl ih =>
    obtain ⟨a, b⟩ := hd
    by_cases ha : a = k
    · subst ha
      have hb : (a == k') = false := beq_eq_false_iff_ne.mpr (fun hc => h hc.symm)
      simp only [List.filter_cons, bne_self_eq_false, cond_false, if_neg,
        Bool.false_eq_true, not_false_iff]
      simpa [alookup, hb] using ih
    · have hbn : ((a, b).1 != k) = true := by
        simp [bne, beq_eq_false_iff_ne.mpr ha]
      simp only [List.filter_cons, hbn, if_pos]
      by_cases hak : a = k'
      · subst hak
        simp [alookup]
      · have hb' : (a == k') = false := beq_eq_false_iff_ne.mpr hak
        simpa [alookup, hb'] using ih

theorem alookup_append (l₁ l₂ : List (α × β)) (k : α) :
    alookup k (l₁ ++ l₂) =
      match alookup k l₁ with
      | some v => some v
      | none => alookup k l₂ := by
  induction l₁ with
  | nil => rfl
  | cons hd tl ih =>
    obtain ⟨a, b⟩ := hd
    by_cases h : a = k
    · subst h
      simp [alookup]
    · have hb : (a == k) = false := beq_eq_false_iff_ne.mpr h
      simp [alookup, hb, ih]

theorem alookup_aset_self (l : List (α × β)) (k : α) (v : β) :
    alookup k (aset l k v) = some v := by
  unfold aset
  rw [alookup_append, alookup_filterNe_self]
  simp [alookup]

theorem alookup_aset_ne (l : List (α × β)) (k k' : α) (v : β) (h : ¬ k' = k) :
    alookup k' (aset l k v) = alookup k' l := by
  unfold aset
  rw [alookup_append, alookup_filterNe_ne l k k' h]
  have hb : (k == k') = false := beq_eq_false_iff_ne.mpr (fun hc => h hc.symm)
  cases hl : alookup k' l <;> simp [alookup, hb]

theorem alookup_aerase_self (l : List (α × β)) (k : α) :
    alookup k (aerase l k) = none :=
  alookup_filterNe_self l k

theorem alookup_aerase_ne (l : List (α × β)) (k k' : α) (h : ¬ k' = k) :
    alookup k' (aerase l k) = alookup k' l :=
  alookup_filterNe_ne l k k' h

end AListLemmas

section ListSetLemmas

variable {γ : Type}

theorem getD_set_self (l : List γ) (i : Nat) (a d : γ) (h : i < l.length) :
    (l.set i a).getD i d = a := by
  induction l generalizing i with
  | nil => simp at h
  | cons hd tl ih =>
    cases i with
    | zero => rfl
    | succ n => exact ih n (Nat.lt_of_succ_lt_succ (by simpa using h))

theorem getD_set_ne (l : List γ) (i j : Nat) (a d : γ) (h : ¬ j = i) :
    (l.set i a).getD j d = l.getD j d := by
  induction l generalizing i j with
  | nil => rfl
  | cons hd tl ih =>
    cases i with
    | zero =>
      cases j with
      | zero => exact absurd rfl h
      | succ m => rfl
    | succ n =>
      cases j with
      | zero => rfl
      | succ m => exact ih n m (fun hc => h (by omega))

end ListSetLemmas

theorem pageOf_updPage_self (b : BufferPoolManager) (f : FrameId) (u : Page → Page)
    (h : f < b.pages.length) :
    pageOf (updPage b f u) f = u (pageOf b f) := by
  unfold pageOf updPage
  exact getD_set_self _ _ _ _ h

theorem pageOf_updPage_ne (b : BufferPoolManager) (f g : FrameId) (u : Page → Page)
    (h : ¬ g = f) :
    pageOf (updPage b f u) g = pageOf b g := by
  unfold pageOf updPage
  exact getD_set_ne _ _ _ _ _ h

theorem length_updPage (b : BufferPoolManager) (f : FrameId) (u : Page → Page) :
    (updPage b f u).pages.length = b.pages.length := by
  simp [updPage]

theorem alookup_mem {α β : Type} [BEq α] [LawfulBEq α] {l : List (α × β)}
    {k : α} {v : β} (h : alookup k l = some v) : (k, v) ∈ l := by
  induction l with
  | nil => cases h
  | cons hd tl ih =>
    obtain ⟨a, b⟩ := hd
    by_cases hak : a = k
    · subst hak
      simp only [alookup, beq_self_eq_true, if_true] at h
      obtain rfl : b = v := by injection h
      exact List.mem_cons_self _ _
    · have hb : (a == k) = false := beq_eq_false_iff_ne.mpr hak
      simp only [alookup, hb, Bool.false_eq_true, if_neg, not_false_iff] at h
      exact List.mem_cons_of_mem _ (ih h)

theorem storeHistWF_lookup {r : LRUKReplacer} {f : FrameId} {n : LRUKNode}
    (hwf : storeHistWF r = true) (h : storeLookup r.node_store f = some n) :
    n.history ≠ [] := by
  have hm : (f, n) ∈ r.node_store := alookup_mem h
  have := List.all_eq_true.mp hwf (f, n) hm
  simpa [List.isEmpty_iff] using this

theorem storeKWF_lookup {r : LRUKReplacer} {f : FrameId} {n : LRUKNode}
    (hwf : storeKWF r = true) (h : storeLookup r.node_store f = some n) :
    n.k = r.k ∧ n.history ≠ [] := by
  have hm : (f, n) ∈ r.node_store := alookup_mem h
  have hall := List.all_eq_true.mp hwf (f, n) hm
  simp only [Bool.and_eq_true, beq_iff_eq, Bool.not_eq_true'] at hall
  exact ⟨hall.1, by simpa [List.isEmpty_iff] using hall.2⟩

/-- The S6-style scenario of the spec (§8): capacity 3, `K = 2`, frames 0, 1
and 2 each recorded once (at timestamps 1, 2, 3 respectively), then all three
marked evictable.  Every frame has an infinite backward distance. -/
def c1Replacer : Except BTError LRUKReplacer := do
  let r0 : LRUKReplacer := { replacer_size := 3, k := 2 }
  let r1 ← r0.RecordAccess 0
  let r2 ← r1.RecordAccess 1
  let r3 ← r2.RecordAccess 2
  let r4 ← r3.SetEvictable 0 true
  let r5 ← r4.SetEvictable 1 true
  r5.SetEvictable 2 true

/-- C1: with three infinite-distance evictable frames whose first accesses
happened at timestamps 1 < 2 < 3, `Evict` returns frame 2 — the frame with
the LATEST first-recorded access — because it removes the greatest element
`*(--st_.end())` of the index, whose tuple order places the largest
`first_timestamp` last within a distance bucket.  The claim (and the LRU-K
contract) requires frame 0, the earliest first access. -/
theorem C1_evict_returns_latest_first_access :
    c1Replacer.map (fun r => r.Evict.1) = .ok (some 2)
    ∧ (some 2 : Option FrameId) ≠ some 0 := by
  constructor
  · rfl
  · decide

/-- The boundary input refuting C2: a replacer of capacity 3 receiving
`RecordAccess` for `frame_id = 3` (`frame_id = pool_size`). -/
def c2Replacer : LRUKReplacer :=
  { replacer_size := 3, k := 2 }

/-- Whether an `Except` computation succeeded. -/
def exceptOk {ε σ : Type} : Except ε σ → Bool
  | .ok _ => true
  | .error _ => false

/-- C2 counterexample: `record_access(pool_size)` succeeds, although the claim
says every `frame_id ≥ pool_size` must raise `InvalidFrameId`; the code's
bound check is the strict `frame_id > replacer_size_`. -/
theorem C2_boundary_frame_id_accepted :
    exceptOk (c2Replacer.RecordAccess 3) = true ∧ c2Replacer.replacer_size = 3 := by
  constructor
  · rfl
  · rfl

/-- C3 counterexample state: a pool of one frame hosting page 0 with
`pin_count = 1` and one reader latched, and a read guard holding that frame. -/
def c3Bpm : BufferPoolManager :=
  { pool_size := 1,
    pages := [{ page_id := 0, pin_count := 1, readers := 1 }],
    page_table := [(0, 0)],
    free_list := [],
    replacer := { replacer_size := 1, k := 2,
                  node_store := [(0, { fid := 0, k := 2, history := [1] })],
                  st := [], time_base_line := 1 } }

/-- The read guard of the C3 counterexample, holding frame 0. -/
def c3Guard : ReadPageGuard :=
  ⟨{ has_bpm := true, page := some 0 }⟩

/-- C3 counterexample: self-move-assigning a holding read guard is NOT a
no-op — the page's pin count drops from 1 to 0 (and the reader latch is
released, the guard emptied), because `ReadPageGuard::operator=` calls
`Drop()` before the (properly guarded) inner basic self-assignment. -/
theorem C3_read_self_move_changes_state :
    (c3Guard.MoveAssignSelf c3Bpm).map (fun gb => (pageOf gb.2 0).pin_count) = .ok 0
    ∧ (pageOf c3Bpm 0).pin_count = 1
    ∧ (c3Guard.MoveAssignSelf c3Bpm).map (fun gb => (pageOf gb.2 0).readers) = .ok 0
    ∧ (pageOf c3Bpm 0).readers = 1
    ∧ (c3Guard.MoveAssignSelf c3Bpm).map (fun gb => gb.1.guard.page) = .ok none := by
  refine ⟨rfl, rfl, rfl, rfl, rfl⟩

/-- C3 (amended): self-move-assignment is a no-op for the Basic guard only
(its `operator=` checks `this != &that`); for the Read and Write guards, which
lack that check, self-move-assignment behaves exactly like `Drop()` — on a
holding guard it releases the latch, unpins the page and empties the guard. -/
theorem C3_self_move_assignment (gB : BasicPageGuard) (gR : ReadPageGuard)
    (gW : WritePageGuard) (b : BufferPoolManager) :
    gB.MoveAssignSelf b = (gB, b)
    ∧ gR.MoveAssignSelf b = gR.Drop b
    ∧ gW.MoveAssignSelf b = gW.Drop b := by
  refine ⟨rfl, ?_, ?_⟩
  · unfold ReadPageGuard.MoveAssignSelf
    cases h : gR.Drop b with
    | error e => rfl
    | ok p => rfl
  · unfold WritePageGuard.MoveAssignSelf
    cases h : gW.Drop b with
    | error e => rfl
    | ok p => rfl

/-- C6: `FlushPage` returns `false` when the page is not in the page table;
when it is resident it writes the frame's current bytes to disk
unconditionally (no dirty-flag test appears anywhere), clears the dirty flag,
and returns `true`, leaving everything else unchanged. -/
theorem C6_flush_page (b : BufferPoolManager) (pid : PageId) :
    (ptLookup b.page_table pid = none → b.FlushPage pid = (false, b))
    ∧ (∀ f, ptLookup b.page_table pid = some f → f < b.pages.length →
        ∃ b', b.FlushPage pid = (true, b')
          ∧ diskRead b'.disk pid = (pageOf b f).data
          ∧ (pageOf b' f).is_dirty = false
          ∧ (pageOf b' f).data = (pageOf b f).data
          ∧ (pageOf b' f).page_id = (pageOf b f).page_id
          ∧ (pageOf b' f).pin_count = (pageOf b f).pin_count
          ∧ b'.page_table = b.page_table
          ∧ b'.replacer = b.replacer
          ∧ b'.free_list = b.free_list) := by
  constructor
  · intro h
    unfold BufferPoolManager.FlushPage
    rw [h]
  · intro f hf hlen
    unfold BufferPoolManager.FlushPage
    rw [hf]
    have hp : pageOf (updPage { b with disk := diskWrite b.disk pid (pageOf b f).data } f
          (fun p => { p with is_dirty := false })) f
        = { (pageOf b f) with is_dirty := false } := by
      rw [pageOf_updPage_self _ _ _ (by simpa using hlen)]
      rfl
    refine ⟨_, rfl, ?_, ?_, ?_, ?_, ?_, rfl, rfl, rfl⟩
    · show diskRead (diskWrite b.disk pid (pageOf b f).data) pid = (pageOf b f).data
      unfold diskRead diskWrite
      rw [alookup_aset_self]
      rfl
    · rw [hp]
    · rw [hp]
    · rw [hp]
    · rw [hp]

/-- A small pool used to instantiate several hypotheses-bearing theorems:
two frames, page 0 resident in frame 0 (pin 1, clean, bytes 7), frame 1
free. -/
def c6Bpm : BufferPoolManager :=
  { pool_size := 2,
    pages := [{ page_id := 0, pin_count := 1, is_dirty := false, data := 7 }, {}],
    page_table := [(0, 0)],
    free_list := [1],
    replacer := { replacer_size := 2, k := 2,
                  node_store := [(0, { fid := 0, k := 2, history := [1] })],
                  st := [], time_base_line := 1 } }

/-- Witness for C6 at a concrete resident page. -/
theorem C6_flush_page_witness :
    ptLookup c6Bpm.page_table 0 = some 0 ∧ (c6Bpm.FlushPage 0).1 = true
    ∧ diskRead (c6Bpm.FlushPage 0).2.disk 0 = 7 := by
  refine ⟨rfl, ?_, ?_⟩
  · obtain ⟨b', hb, -⟩ := (C6_flush_page c6Bpm 0).2 0 rfl (by decide)
    rw [hb]
  · obtain ⟨b', hb, hd, -⟩ := (C6_flush_page c6Bpm 0).2 0 rfl (by decide)
    rw [hb]
    exact hd

/-- C10: whenever `UnpinPage` returns `false`, the whole buffer pool state is
unchanged — the failure paths return before any mutation, so unpinning a
non-resident page or a page with pin count 0 (even with `is_dirty = true`)
alters neither pin counts, dirty flags, the page table nor the replacer. -/
theorem C10_unpin_failure_atomic (b : BufferPoolManager) (pid : PageId)
    (d : Bool) (b2 : BufferPoolManager)
    (h : b.UnpinPage pid d = .ok (false, b2)) : b2 = b := by
  unfold BufferPoolManager.UnpinPage at h
  cases hpt : ptLookup b.page_table pid with
  | none =>
    simp only [hpt, Except.ok.injEq, Prod.mk.injEq, true_and] at h
    exact h.symm
  | some f =>
    simp only [hpt] at h
    by_cases hpin : (pageOf b f).pin_count ≤ 0
    · rw [if_pos hpin] at h
      simp only [Except.ok.injEq, Prod.mk.injEq, true_and] at h
      exact h.symm
    · rw [if_neg hpin] at h
      cases hse : (if (pageOf (updPage b f fun p => { p with pin_count := p.pin_count - 1 }) f).pin_count = 0
          then (updPage b f fun p => { p with pin_count := p.pin_count - 1 }).replacer.SetEvictable f true
          else .ok (updPage b f fun p => { p with pin_count := p.pin_count - 1 }).replacer) with
      | error e => rw [hse] at h; cases h
      | ok r' =>
        rw [hse] at h
        simp only [Except.ok.injEq, Prod.mk.injEq] at h
        exact absurd h.1 (by decide)

/-- A pool whose only resident page already has pin count 0: `UnpinPage`
with `is_dirty = true` must fail and change nothing. -/
def c10Bpm : BufferPoolManager :=
  { pool_size := 1,
    pages := [{ page_id := 0, pin_count := 0 }],
    page_table := [(0, 0)],
    free_list := [],
    replacer := { replacer_size := 1, k := 2,
                  node_store := [(0, { fid := 0, k := 2, history := [1] })],
                  st := [], time_base_line := 1 } }

/-- Witness for C10: the failed unpin of an already-unpinned page leaves the
state intact. -/
theorem C10_unpin_failure_atomic_witness : c10Bpm = c10Bpm :=
  C10_unpin_failure_atomic c10Bpm 0 true c10Bpm rfl

/-- The history update the spec describes for `record_access`: append one
fresh timestamp to the frame's history (creating the record when absent) and
drop the oldest entry when the history exceeds `K`. -/
def recordedHistory (r : LRUKReplacer) (f : FrameId) : List Nat :=
  match storeLookup r.node_store f with
  | none => [r.time_base_line + 1]
  | some n =>
    if r.k < (n.history ++ [r.time_base_line + 1]).length
    then (n.history ++ [r.time_base_line + 1]).tail
    else n.history ++ [r.time_base_line + 1]

theorem recordAccess_fresh (r : LRUKReplacer) (f : FrameId)
    (hle : ¬ r.replacer_size < f) (hs : storeLookup r.node_store f = none)
    (hk : 1 ≤ r.k) :
    r.RecordAccess f = .ok { r with
      node_store := storeSet r.node_store f
        { fid := f, k := r.k, history := [r.time_base_line + 1] },
      time_base_line := r.time_base_line + 1 } := by
  unfold LRUKReplacer.RecordAccess
  rw [if_neg hle, hs]
  simp only [LRUKNode.Add, List.nil_append, List.length_cons, List.length_nil]
  rw [if_neg (by omega : ¬ r.k < 0 + 1)]
  rw [if_neg (by simp : ¬ (false = true))]

theorem storeLookup_storeSet_self (l : List (FrameId × LRUKNode)) (f : FrameId)
    (n : LRUKNode) : storeLookup (storeSet l f n) f = some n := by
  unfold storeLookup storeSet
  exact alookup_aset_self l f n

theorem storeLookup_storeSet_ne (l : List (FrameId × LRUKNode)) (f g : FrameId)
    (n : LRUKNode) (h : ¬ g = f) :
    storeLookup (storeSet l f n) g = storeLookup l g := by
  unfold storeLookup storeSet
  exact alookup_aset_ne l f g n h

theorem storeLookup_storeErase_self (l : List (FrameId × LRUKNode)) (f : FrameId) :
    storeLookup (storeErase l f) f = none := by
  unfold storeLookup storeErase
  exact alookup_aerase_self l f

theorem storeLookup_storeErase_ne (l : List (FrameId × LRUKNode)) (f g : FrameId)
    (h : ¬ g = f) : storeLookup (storeErase l f) g = storeLookup l g := by
  unfold storeLookup storeErase
  exact alookup_aerase_ne l f g h

theorem recordAccess_existing (r : LRUKReplacer) (f : FrameId) (n : LRUKNode)
    (hle : ¬ r.replacer_size < f) (hs : storeLookup r.node_store f = some n)
    (hne : n.history ≠ []) :
    ∃ r', r.RecordAccess f = .ok r'
      ∧ storeLookup r'.node_store f = some (n.Add (r.time_base_line + 1))
      ∧ r'.time_base_line = r.time_base_line + 1 := by
  obtain ⟨h0, htl, hh⟩ : ∃ h0 htl, n.history = h0 :: htl := by
    cases hx : n.history with
    | nil => exact absurd hx hne
    | cons a l => exact ⟨a, l, rfl⟩
  have hft : n.FirstTime = .ok h0 := by
    unfold LRUKNode.FirstTime
    rw [hh]
  have hnt : nodeTuple n f = .ok (n.GetDistance, h0, f) := by
    unfold nodeTuple
    rw [hft]
  have hne1 : (n.Add (r.time_base_line + 1)).history ≠ [] := by
    simp only [LRUKNode.Add, hh, List.cons_append]
    split
    · simp
    · simp
  obtain ⟨y, ys, hy⟩ : ∃ y ys, (n.Add (r.time_base_line + 1)).history = y :: ys := by
    cases hx : (n.Add (r.time_base_line + 1)).history with
    | nil => exact absurd hx hne1
    | cons a l => exact ⟨a, l, rfl⟩
  have hft1 : (n.Add (r.time_base_line + 1)).FirstTime = .ok y := by
    unfold LRUKNode.FirstTime
    rw [hy]
  have hnt1 : nodeTuple (n.Add (r.time_base_line + 1)) f
      = .ok ((n.Add (r.time_base_line + 1)).GetDistance, y, f) := by
    unfold nodeTuple
    rw [hft1]
  unfold LRUKReplacer.RecordAccess
  rw [if_neg hle]
  simp only [hs, hnt, hnt1]
  cases hev : (n.Add (r.time_base_line + 1)).is_evictable
  · rw [if_neg (by simp : ¬ (false = true))]
    exact ⟨_, rfl, storeLookup_storeSet_self _ _ _, rfl⟩
  · rw [if_pos rfl]
    exact ⟨_, rfl, storeLookup_storeSet_self _ _ _, rfl⟩

/-- C2 (amended): `RecordAccess` raises `InvalidFrameId` exactly when the
frame id STRICTLY exceeds the capacity (`frame_id > pool_size`, where the
claim says `frame_id ≥ pool_size`; the boundary `frame_id = pool_size` is
accepted); for every `frame_id ≤ pool_size` it succeeds — given `K ≥ 1` and
well-formed records — and appends a fresh timestamp to the frame's history,
dropping the oldest entry past `K`. -/
theorem C2_record_access_bound (r : LRUKReplacer) (f : FrameId)
    (hk : 1 ≤ r.k) (hwf : storeKWF r = true) :
    (r.RecordAccess f = .error .invalidFrameId ↔ r.replacer_size < f)
    ∧ (f ≤ r.replacer_size →
        ∃ r', r.RecordAccess f = .ok r'
          ∧ (storeLookup r'.node_store f).map (fun nd => nd.history)
              = some (recordedHistory r f)) := by
  by_cases hlt : r.replacer_size < f
  · refine ⟨⟨fun _ => hlt, fun _ => ?_⟩, fun hle => absurd hle (not_le.mpr hlt)⟩
    unfold LRUKReplacer.RecordAccess
    rw [if_pos hlt]
  · have hok : ∃ r', r.RecordAccess f = .ok r'
        ∧ (storeLookup r'.node_store f).map (fun nd => nd.history)
            = some (recordedHistory r f) := by
      cases hs : storeLookup r.node_store f with
      | none =>
        refine ⟨_, recordAccess_fresh r f hlt hs hk, ?_⟩
        rw [storeLookup_storeSet_self]
        unfold recordedHistory
        rw [hs]
        rfl
      | some n =>
        obtain ⟨hkk, hne⟩ := storeKWF_lookup hwf hs
        obtain ⟨r', hr', hlook, -⟩ :=
          recordAccess_existing r f n hlt hs hne
        refine ⟨r', hr', ?_⟩
        rw [hlook]
        unfold recordedHistory
        rw [hs]
        simp only [LRUKNode.Add, Option.map_some', hkk]
    obtain ⟨r', hr', hist⟩ := hok
    refine ⟨⟨fun herr => ?_, fun hlt' => absurd hlt' hlt⟩, fun _ => ⟨r', hr', hist⟩⟩
    rw [hr'] at herr
    cases herr

/-- A replacer state instantiating the C2 hypotheses: capacity 3, `K = 2`,
frame 1 already recorded once. -/
def c2WitnessR : LRUKReplacer :=
  { replacer_size := 3, k := 2,
    node_store := [(1, { fid := 1, k := 2, history := [5] })],
    st := [], time_base_line := 5 }

theorem evict_some (r : LRUKReplacer) (f : FrameId) (r' : LRUKReplacer)
    (h : r.Evict = (some f, r')) :
    r.st ≠ [] ∧ r'.replacer_size = r.replacer_size ∧ r'.k = r.k
    ∧ storeLookup r'.node_store f = none
    ∧ r'.time_base_line = r.time_base_line := by
  unfold LRUKReplacer.Evict at h
  cases hst : r.st with
  | nil =>
    rw [hst] at h
    cases h
  | cons hd tl =>
    rw [hst] at h
    simp only [Prod.mk.injEq, Option.some.injEq] at h
    obtain ⟨hf, hr⟩ := h
    subst hf
    subst hr
    refine ⟨by simp [hst], rfl, rfl, ?_, rfl⟩
    exact storeLookup_storeErase_self _ _

theorem updPage_replacer (b : BufferPoolManager) (f : FrameId) (u : Page → Page) :
    (updPage b f u).replacer = b.replacer := rfl

theorem updPage_page_table (b : BufferPoolManager) (f : FrameId) (u : Page → Page) :
    (updPage b f u).page_table = b.page_table := rfl

theorem updPage_free_list (b : BufferPoolManager) (f : FrameId) (u : Page → Page) :
    (updPage b f u).free_list = b.free_list := rfl

theorem updPage_disk (b : BufferPoolManager) (f : FrameId) (u : Page → Page) :
    (updPage b f u).disk = b.disk := rfl

theorem updPage_next_page_id (b : BufferPoolManager) (f : FrameId) (u : Page → Page) :
    (updPage b f u).next_page_id = b.next_page_id := rfl

theorem withReplacer_pageOf (b : BufferPoolManager) (r' : LRUKReplacer) (f : FrameId) :
    pageOf { b with replacer := r' } f = pageOf b f := rfl

theorem withReplacer_page_table (b : BufferPoolManager) (r' : LRUKReplacer) :
    ({ b with replacer := r' } : BufferPoolManager).page_table = b.page_table := rfl

theorem withReplacer_free_list (b : BufferPoolManager) (r' : LRUKReplacer) :
    ({ b with replacer := r' } : BufferPoolManager).free_list = b.free_list := rfl

theorem withReplacer_disk (b : BufferPoolManager) (r' : LRUKReplacer) :
    ({ b with replacer := r' } : BufferPoolManager).disk = b.disk := rfl

theorem withReplacer_replacer (b : BufferPoolManager) (r' : LRUKReplacer) :
    ({ b with replacer := r' } : BufferPoolManager).replacer = r' := rfl

theorem withReplacer_pages_length (b : BufferPoolManager) (r' : LRUKReplacer) :
    ({ b with replacer := r' } : BufferPoolManager).pages.length = b.pages.length := rfl

theorem withReplacer_next_page_id (b : BufferPoolManager) (r' : LRUKReplacer) :
    ({ b with replacer := r' } : BufferPoolManager).next_page_id = b.next_page_id := rfl

theorem pageOf_withReplacer_updPage_self (b : BufferPoolManager) (r' : LRUKReplacer)
    (f : FrameId) (u : Page → Page) (h : f < b.pages.length) :
    pageOf (updPage { b with replacer := r' } f u) f = u (pageOf b f) := by
  rw [pageOf_updPage_self _ _ _ (by rw [withReplacer_pages_length]; exact h)]
  rfl

theorem pageOf_withReplacer_updPage_ne (b : BufferPoolManager) (r' : LRUKReplacer)
    (f g : FrameId) (u : Page → Page) (h : ¬ g = f) :
    pageOf (updPage { b with replacer := r' } f u) g = pageOf b g := by
  rw [pageOf_updPage_ne _ _ _ _ h]
  rfl

theorem setEvictable_noop (r : LRUKReplacer) (f : FrameId) (n : LRUKNode)
    (se : Bool) (hs : storeLookup r.node_store f = some n)
    (h : n.is_evictable = se) : r.SetEvictable f se = .ok r := by
  unfold LRUKReplacer.SetEvictable
  simp only [hs]
  rw [if_pos (by simp [h])]

theorem setEvictable_ok (r : LRUKReplacer) (f : FrameId) (se : Bool)
    (hwf : storeHistWF r = true) :
    ∃ r', r.SetEvictable f se = .ok r'
      ∧ (∀ g, ¬ g = f → storeLookup r'.node_store g = storeLookup r.node_store g)
      ∧ (storeLookup r'.node_store f).map (fun nd => nd.is_evictable)
          = (storeLookup r.node_store f).map (fun _ => se)
      ∧ (storeLookup r'.node_store f).map (fun nd => nd.history)
          = (storeLookup r.node_store f).map (fun nd => nd.history)
      ∧ r'.time_base_line = r.time_base_line
      ∧ r'.replacer_size = r.replacer_size
      ∧ r'.k = r.k := by
  cases hs : storeLookup r.node_store f with
  | none =>
    have hr : r.SetEvictable f se = .ok r := by
      unfold LRUKReplacer.SetEvictable
      simp only [hs]
    exact ⟨r, hr, fun g _ => rfl, by rw [hs]; try rfl, by rw [hs]; try rfl, rfl, rfl, rfl⟩
  | some n =>
    by_cases hev : n.is_evictable = se
    · refine ⟨r, setEvictable_noop r f n se hs hev, fun g _ => rfl, ?_, by rw [hs], rfl, rfl, rfl⟩
      rw [hs]
      simp [hev]
    · have hne : n.history ≠ [] := storeHistWF_lookup hwf hs
      obtain ⟨h0, htl, hh⟩ : ∃ h0 htl, n.history = h0 :: htl := by
        cases hx : n.history with
        | nil => exact absurd hx hne
        | cons a l => exact ⟨a, l, rfl⟩
      have hnt : nodeTuple n f = .ok (n.GetDistance, h0, f) := by
        unfold nodeTuple LRUKNode.FirstTime
        rw [hh]
      have hr : r.SetEvictable f se = .ok { r with
          node_store := storeSet r.node_store f (n.SetEvictable se),
          st := if se then stInsert r.st (n.GetDistance, h0, f)
                else stErase r.st (n.GetDistance, h0, f) } := by
        unfold LRUKReplacer.SetEvictable
        simp only [hs]
        rw [if_neg (by simp [hev]), hnt]
      refine ⟨_, hr, ?_, ?_, ?_, rfl, rfl, rfl⟩
      · intro g hg
        exact storeLookup_storeSet_ne _ _ _ _ hg
      · rw [storeLookup_storeSet_self]
        simp [LRUKNode.SetEvictable]
      · rw [storeLookup_storeSet_self]
        simp [LRUKNode.SetEvictable]

theorem unpin_success (b : BufferPoolManager) (pid : PageId) (d : Bool)
    (f : FrameId) (n : Nat)
    (hpt : ptLookup b.page_table pid = some f)
    (hlen : f < b.pages.length)
    (hpin : (pageOf b f).pin_count = n + 1)
    (hwf : storeHistWF b.replacer = true) :
    ∃ b', b.UnpinPage pid d = .ok (true, b')
      ∧ (pageOf b' f).pin_count = n
      ∧ (pageOf b' f).is_dirty = ((pageOf b f).is_dirty || d)
      ∧ (pageOf b' f).page_id = (pageOf b f).page_id
      ∧ (pageOf b' f).data = (pageOf b f).data
      ∧ (pageOf b' f).readers = (pageOf b f).readers
      ∧ (pageOf b' f).writer = (pageOf b f).writer
      ∧ (∀ g, ¬ g = f → pageOf b' g = pageOf b g)
      ∧ b'.page_table = b.page_table
      ∧ b'.free_list = b.free_list
      ∧ b'.disk = b.disk
      ∧ b'.pages.length = b.pages.length
      ∧ (0 < n → b'.replacer = b.replacer)
      ∧ (n = 0 → (storeLookup b'.replacer.node_store f).map (fun nd => nd.is_evictable)
            = (storeLookup b.replacer.node_store f).map (fun _ => true)) := by
  have hnle : ¬ (pageOf b f).pin_count ≤ 0 := by omega
  have hb1 : pageOf (updPage b f fun p => { p with pin_count := p.pin_count - 1 }) f
      = { (pageOf b f) with pin_count := n } := by
    rw [pageOf_updPage_self _ _ _ hlen]
    simp [hpin]
  unfold BufferPoolManager.UnpinPage
  simp only [hpt, if_neg hnle, hb1, updPage_replacer]
  by_cases hn : n = 0
  · subst hn
    obtain ⟨r', hr', hlookne, hflag, hhist, htime, hsz, hkk⟩ :=
      setEvictable_ok b.replacer f true hwf
    rw [if_pos rfl]
    simp only [hr']
    refine ⟨_, rfl, ?_, ?_, ?_, ?_, ?_, ?_, ?_, ?_, ?_, ?_, ?_, ?_, ?_⟩
    · rw [pageOf_withReplacer_updPage_self _ _ _ _ (by rw [length_updPage]; exact hlen), hb1]
    · rw [pageOf_withReplacer_updPage_self _ _ _ _ (by rw [length_updPage]; exact hlen), hb1]
    · rw [pageOf_withReplacer_updPage_self _ _ _ _ (by rw [length_updPage]; exact hlen), hb1]
    · rw [pageOf_withReplacer_updPage_self _ _ _ _ (by rw [length_updPage]; exact hlen), hb1]
    · rw [pageOf_withReplacer_updPage_self _ _ _ _ (by rw [length_updPage]; exact hlen), hb1]
    · rw [pageOf_withReplacer_updPage_self _ _ _ _ (by rw [length_updPage]; exact hlen), hb1]
    · intro g hg
      rw [pageOf_withReplacer_updPage_ne _ _ _ _ _ hg]
      rw [pageOf_updPage_ne _ _ _ _ hg]
    · rw [updPage_page_table, withReplacer_page_table, updPage_page_table]
    · rw [updPage_free_list, withReplacer_free_list, updPage_free_list]
    · rw [updPage_disk, withReplacer_disk, updPage_disk]
    · rw [length_updPage, withReplacer_pages_length, length_updPage]
    · intro hnn
      exact absurd hnn (by omega)
    · intro _
      rw [updPage_replacer, withReplacer_replacer]
      exact hflag
  · rw [if_neg (by simpa using hn)]
    refine ⟨_, rfl, ?_, ?_, ?_, ?_, ?_, ?_, ?_, ?_, ?_, ?_, ?_, ?_, ?_⟩
    · rw [pageOf_withReplacer_updPage_self _ _ _ _ (by rw [length_updPage]; exact hlen), hb1]
    · rw [pageOf_withReplacer_updPage_self _ _ _ _ (by rw [length_updPage]; exact hlen), hb1]
    · rw [pageOf_withReplacer_updPage_self _ _ _ _ (by rw [length_updPage]; exact hlen), hb1]
    · rw [pageOf_withReplacer_updPage_self _ _ _ _ (by rw [length_updPage]; exact hlen), hb1]
    · rw [pageOf_withReplacer_updPage_self _ _ _ _ (by rw [length_updPage]; exact hlen), hb1]
    · rw [pageOf_withReplacer_updPage_self _ _ _ _ (by rw [length_updPage]; exact hlen), hb1]
    · intro g hg
      rw [pageOf_withReplacer_updPage_ne _ _ _ _ _ hg]
      rw [pageOf_updPage_ne _ _ _ _ hg]
    · rw [updPage_page_table, withReplacer_page_table, updPage_page_table]
    · rw [updPage_free_list, withReplacer_free_list, updPage_free_list]
    · rw [updPage_disk, withReplacer_disk, updPage_disk]
    · rw [length_updPage, withReplacer_pages_length, length_updPage]
    · intro _
      rw [updPage_replacer, withReplacer_replacer]
    · intro hzero
      exact absurd hzero hn

/-- C5: `UnpinPage` returns `false` when the page is not resident or its pin
count is already 0; otherwise it returns `true`, decrements the pin count by
exactly one, OR-folds `is_dirty` into the frame's dirty flag (a dirty frame
stays dirty when unpinned clean), and marks the frame evictable in the
replacer exactly when the decremented pin count equals 0. -/
theorem C5_unpin_page (b : BufferPoolManager) (pid : PageId) (d : Bool)
    (hwf : storeHistWF b.replacer = true) :
    (ptLookup b.page_table pid = none → b.UnpinPage pid d = .ok (false, b))
    ∧ (∀ f, ptLookup b.page_table pid = some f → (pageOf b f).pin_count = 0 →
        b.UnpinPage pid d = .ok (false, b))
    ∧ (∀ f n, ptLookup b.page_table pid = some f → f < b.pages.length →
        (pageOf b f).pin_count = n + 1 →
        ∃ b', b.UnpinPage pid d = .ok (true, b')
          ∧ (pageOf b' f).pin_count = n
          ∧ (pageOf b' f).is_dirty = ((pageOf b f).is_dirty || d)
          ∧ (0 < n → b'.replacer = b.replacer)
          ∧ (n = 0 → (storeLookup b'.replacer.node_store f).map (fun nd => nd.is_evictable)
                = (storeLookup b.replacer.node_store f).map (fun _ => true))) := by
  refine ⟨?_, ?_, ?_⟩
  · intro h
    unfold BufferPoolManager.UnpinPage
    simp only [h]
  · intro f hf hpin
    unfold BufferPoolManager.UnpinPage
    simp only [hf]
    rw [if_pos (by omega)]
  · intro f n hf hlen hpin
    obtain ⟨b', h1, h2, h3, _, _, _, _, _, _, _, _, _, h13, h14⟩ :=
      unpin_success b pid d f n hf hlen hpin hwf
    exact ⟨b', h1, h2, h3, h13, h14⟩

/-- Witness for C5 at a concrete resident page with pin count 1, unpinned
dirty: the pin reaches 0 and the frame becomes evictable. -/
theorem C5_unpin_page_witness :
    storeHistWF c6Bpm.replacer = true
    ∧ ptLookup c6Bpm.page_table 0 = some 0
    ∧ (pageOf c6Bpm 0).pin_count = 0 + 1
    ∧ (c6Bpm.UnpinPage 0 true).map (fun rb => rb.1) = .ok true := by
  refine ⟨by decide, rfl, by decide, ?_⟩
  obtain ⟨b', h1, -⟩ :=
    (C5_unpin_page c6Bpm 0 true (by decide)).2.2 0 0 rfl (by decide) (by decide)
  rw [h1]
  rfl

/-- C9: on a `FetchPage` hit the frame's pin count is incremented by one, the
frame is marked non-evictable, and the same frame is returned; everything
else is unchanged — in particular the replacer's access histories and its
timestamp counter are untouched (the hit path never calls `RecordAccess`),
and the page table, free list, disk, frame bytes and dirty flag are
preserved. -/
theorem C9_fetch_hit (b : BufferPoolManager) (pid : PageId)
    (hwf : storeHistWF b.replacer = true) :
    ∀ f, ptLookup b.page_table pid = some f → f < b.pages.length →
    ∃ b', b.FetchPage pid = .ok (some f, b')
      ∧ (pageOf b' f).pin_count = (pageOf b f).pin_count + 1
      ∧ (storeLookup b'.replacer.node_store f).map (fun nd => nd.is_evictable)
          = (storeLookup b.replacer.node_store f).map (fun _ => false)
      ∧ (∀ g, (storeLookup b'.replacer.node_store g).map (fun nd => nd.history)
          = (storeLookup b.replacer.node_store g).map (fun nd => nd.history))
      ∧ b'.replacer.time_base_line = b.replacer.time_base_line
      ∧ b'.page_table = b.page_table
      ∧ b'.free_list = b.free_list
      ∧ b'.disk = b.disk
      ∧ b'.next_page_id = b.next_page_id
      ∧ (pageOf b' f).data = (pageOf b f).data
      ∧ (pageOf b' f).is_dirty = (pageOf b f).is_dirty
      ∧ (pageOf b' f).page_id = (pageOf b f).page_id
      ∧ (∀ g, ¬ g = f → pageOf b' g = pageOf b g) := by
  intro f hf hlen
  obtain ⟨r', hr', hlookne, hflag, hhist, htime, _, _⟩ :=
    setEvictable_ok b.replacer f false hwf
  unfold BufferPoolManager.FetchPage
  simp only [hf, updPage_replacer, hr']
  refine ⟨_, rfl, ?_, ?_, ?_, ?_, ?_, ?_, ?_, ?_, ?_, ?_, ?_, ?_⟩
  · rw [withReplacer_pageOf, pageOf_updPage_self _ _ _ hlen]
  · rw [withReplacer_replacer]
    exact hflag
  · intro g
    rw [withReplacer_replacer]
    by_cases hg : g = f
    · subst hg
      exact hhist
    · rw [hlookne g hg]
  · rw [withReplacer_replacer]
    exact htime
  · rw [withReplacer_page_table, updPage_page_table]
  · rw [withReplacer_free_list, updPage_free_list]
  · rw [withReplacer_disk, updPage_disk]
  · rw [withReplacer_next_page_id, updPage_next_page_id]
  · rw [withReplacer_pageOf, pageOf_updPage_self _ _ _ hlen]
  · rw [withReplacer_pageOf, pageOf_updPage_self _ _ _ hlen]
  · rw [withReplacer_pageOf, pageOf_updPage_self _ _ _ hlen]
  · intro g hg
    rw [withReplacer_pageOf, pageOf_updPage_ne _ _ _ _ hg]

/-- Witness for C9: fetching the resident page 0 of the two-frame pool hits,
returns frame 0 and bumps the pin count to 2. -/
theorem C9_fetch_hit_witness :
    storeHistWF c6Bpm.replacer = true
    ∧ ptLookup c6Bpm.page_table 0 = some 0
    ∧ (c6Bpm.FetchPage 0).map (fun rb => rb.1) = .ok (some 0)
    ∧ (c6Bpm.FetchPage 0).map (fun rb => (pageOf rb.2 0).pin_count) = .ok 2 := by
  refine ⟨by decide, rfl, ?_, ?_⟩
  · obtain ⟨b', h1, -⟩ := C9_fetch_hit c6Bpm 0 (by decide) 0 rfl (by decide)
    rw [h1]
    rfl
  · obtain ⟨b', h1, h2, -⟩ := C9_fetch_hit c6Bpm 0 (by decide) 0 rfl (by decide)
    rw [h1]
    simp only [Except.map]
    rw [h2]
    rfl

theorem basic_drop_ok (g : BasicPageGuard) (b : BufferPoolManager)
    (f : FrameId) (n : Nat) (hb : g.has_bpm = true) (hp : g.page = some f)
    (hlen : f < b.pages.length)
    (hpt : ptLookup b.page_table (pageOf b f).page_id = some f)
    (hpin : (pageOf b f).pin_count = n + 1)
    (hwf : storeHistWF b.replacer = true) :
    ∃ b', g.Drop b = .ok (g.CLear, b')
      ∧ (pageOf b' f).pin_count = n
      ∧ (pageOf b' f).readers = (pageOf b f).readers
      ∧ (pageOf b' f).writer = (pageOf b f).writer
      ∧ b'.page_table = b.page_table
      ∧ b'.pages.length = b.pages.length := by
  obtain ⟨b', h1, h2, _, _, _, h6, h7, _, h9, _, _, h12, _, _⟩ :=
    unpin_success b (pageOf b f).page_id g.is_dirty f n hpt hlen hpin hwf
  unfold BasicPageGuard.Drop
  simp only [hb, hp, h1]
  exact ⟨b', rfl, h2, h6, h7, h9, h12⟩

/-- C8: dropping a holding guard is idempotent: the first `Drop` decrements
the page's pin count by exactly one (and, for Read/Write guards, releases the
reader/writer latch exactly once), empties the guard, and every subsequent
`Drop` — which is also what the destructor runs — changes nothing, so the pin
count changes by exactly one over the guard's lifetime. -/
theorem C8_drop_idempotent (b : BufferPoolManager)
    (hwf : storeHistWF b.replacer = true) :
    (∀ (g : BasicPageGuard) f n, g.has_bpm = true → g.page = some f →
      f < b.pages.length →
      ptLookup b.page_table (pageOf b f).page_id = some f →
      (pageOf b f).pin_count = n + 1 →
      ∃ b', g.Drop b = .ok (g.CLear, b')
        ∧ (pageOf b' f).pin_count = n
        ∧ (g.CLear).Drop b' = .ok (g.CLear, b'))
    ∧ (∀ (g : ReadPageGuard) f n, g.guard.has_bpm = true → g.guard.page = some f →
      f < b.pages.length →
      ptLookup b.page_table (pageOf b f).page_id = some f →
      (pageOf b f).pin_count = n + 1 →
      ∃ b', g.Drop b = .ok (⟨g.guard.CLear⟩, b')
        ∧ (pageOf b' f).pin_count = n
        ∧ (pageOf b' f).readers = (pageOf b f).readers - 1
        ∧ (ReadPageGuard.mk g.guard.CLear).Drop b' = .ok (⟨g.guard.CLear⟩, b'))
    ∧ (∀ (g : WritePageGuard) f n, g.guard.has_bpm = true → g.guard.page = some f →
      f < b.pages.length →
      ptLookup b.page_table (pageOf b f).page_id = some f →
      (pageOf b f).pin_count = n + 1 →
      ∃ b', g.Drop b = .ok (⟨g.guard.CLear⟩, b')
        ∧ (pageOf b' f).pin_count = n
        ∧ (pageOf b' f).writer = false
        ∧ (WritePageGuard.mk g.guard.CLear).Drop b' = .ok (⟨g.guard.CLear⟩, b')) := by
  refine ⟨?_, ?_, ?_⟩
  · intro g f n hb hp hlen hpt hpin
    obtain ⟨b', h1, h2, -⟩ := basic_drop_ok g b f n hb hp hlen hpt hpin hwf
    exact ⟨b', h1, h2, rfl⟩
  · intro g f n hb hp hlen hpt hpin
    have hb1p : pageOf (updPage b f Page.RUnlatch) f = (pageOf b f).RUnlatch :=
      pageOf_updPage_self _ _ _ hlen
    have hlen1 : f < (updPage b f Page.RUnlatch).pages.length := by
      rw [length_updPage]
      exact hlen
    have hpt1 : ptLookup (updPage b f Page.RUnlatch).page_table
        (pageOf (updPage b f Page.RUnlatch) f).page_id = some f := by
      rw [updPage_page_table, hb1p]
      exact hpt
    have hpin1 : (pageOf (updPage b f Page.RUnlatch) f).pin_count = n + 1 := by
      rw [hb1p]
      exact hpin
    obtain ⟨b', h1, h2, h3, h4, h5, h6⟩ :=
      basic_drop_ok g.guard (updPage b f Page.RUnlatch) f n hb hp hlen1 hpt1 hpin1 hwf
    unfold ReadPageGuard.Drop
    simp only [hp, h1]
    refine ⟨b', rfl, h2, ?_, rfl⟩
    rw [h3, hb1p]
    rfl
  · intro g f n hb hp hlen hpt hpin
    have hb1p : pageOf (updPage b f Page.WUnlatch) f = (pageOf b f).WUnlatch :=
      pageOf_updPage_self _ _ _ hlen
    have hlen1 : f < (updPage b f Page.WUnlatch).pages.length := by
      rw [length_updPage]
      exact hlen
    have hpt1 : ptLookup (updPage b f Page.WUnlatch).page_table
        (pageOf (updPage b f Page.WUnlatch) f).page_id = some f := by
      rw [updPage_page_table, hb1p]
      exact hpt
    have hpin1 : (pageOf (updPage b f Page.WUnlatch) f).pin_count = n + 1 := by
      rw [hb1p]
      exact hpin
    obtain ⟨b', h1, h2, h3, h4, h5, h6⟩ :=
      basic_drop_ok g.guard (updPage b f Page.WUnlatch) f n hb hp hlen1 hpt1 hpin1 hwf
    unfold WritePageGuard.Drop
    simp only [hp, h1]
    refine ⟨b', rfl, h2, ?_, rfl⟩
    rw [h4, hb1p]
    rfl

/-- A one-frame pool with page 0 pinned once, one reader and the writer latch
held, instantiating the C8 hypotheses. -/
def c8Bpm : BufferPoolManager :=
  { pool_size := 1,
    pages := [{ page_id := 0, pin_count := 1, readers := 1, writer := true }],
    page_table := [(0, 0)],
    free_list := [],
    replacer := { replacer_size := 1, k := 2,
                  node_store := [(0, { fid := 0, k := 2, history := [1] })],
                  st := [], time_base_line := 1 } }

/-- Witness for C8: dropping a holding read guard on the concrete pool takes
the pin count from 1 to 0. -/
theorem C8_drop_idempotent_witness :
    storeHistWF c8Bpm.replacer = true
    ∧ (pageOf c8Bpm 0).pin_count = 0 + 1
    ∧ ((⟨{ has_bpm := true, page := some 0 }⟩ : ReadPageGuard).Drop c8Bpm).map
        (fun gb => (pageOf gb.2 0).pin_count) = .ok 0 := by
  refine ⟨by decide, by decide, ?_⟩
  obtain ⟨b', h1, h2, -⟩ :=
    (C8_drop_idempotent c8Bpm (by decide)).2.1
      ⟨{ has_bpm := true, page := some 0 }⟩ 0 0 rfl rfl (by decide) (by decide) (by decide)
  rw [h1]
  simp only [Except.map]
  rw [h2]

theorem remove_ok (r : LRUKReplacer) (f : FrameId)
    (hwf : storeHistWF r = true)
    (hev : ∀ nd, storeLookup r.node_store f = some nd → nd.is_evictable = true) :
    ∃ r', r.Remove f = .ok r' ∧ storeLookup r'.node_store f = none := by
  cases hs : storeLookup r.node_store f with
  | none =>
    refine ⟨r, ?_, hs⟩
    unfold LRUKReplacer.Remove
    simp only [hs]
  | some n =>
    have hne : n.history ≠ [] := storeHistWF_lookup hwf hs
    obtain ⟨h0, htl, hh⟩ : ∃ h0 htl, n.history = h0 :: htl := by
      cases hx : n.history with
      | nil => exact absurd hx hne
      | cons a l => exact ⟨a, l, rfl⟩
    have hnt : nodeTuple n f = .ok (n.GetDistance, h0, f) := by
      unfold nodeTuple LRUKNode.FirstTime
      rw [hh]
    have hr : r.Remove f = .ok { r with
        st := stErase r.st (n.GetDistance, h0, f),
        node_store := storeErase r.node_store f } := by
      unfold LRUKReplacer.Remove
      simp only [hs]
      rw [if_pos (hev n hs), hnt]
    exact ⟨_, hr, storeLookup_storeErase_self _ _⟩

/-- C7: `DeletePage` refuses (`false`) a resident pinned page; succeeds
vacuously (`true`) on a non-resident page; and on a resident unpinned page
removes the frame's record from the replacer, appends the frame to the free
list, resets the frame's memory and metadata (page id to INVALID, pin 0,
dirty false), erases the page-table entry, and returns `true`. -/
theorem C7_delete_page (b : BufferPoolManager) (pid : PageId)
    (hwf : storeHistWF b.replacer = true) :
    (∀ f, ptLookup b.page_table pid = some f → 0 < (pageOf b f).pin_count →
        b.DeletePage pid = .ok (false, b))
    ∧ (ptLookup b.page_table pid = none → b.DeletePage pid = .ok (true, b))
    ∧ (∀ f, ptLookup b.page_table pid = some f → (pageOf b f).pin_count = 0 →
        f < b.pages.length →
        (∀ nd, storeLookup b.replacer.node_store f = some nd → nd.is_evictable = true) →
        ∃ b', b.DeletePage pid = .ok (true, b')
          ∧ storeLookup b'.replacer.node_store f = none
          ∧ b'.free_list = b.free_list ++ [f]
          ∧ pageOf b' f = { (pageOf b f) with
              page_id := INVALID_PAGE_ID, pin_count := 0, is_dirty := false, data := 0 }
          ∧ ptLookup b'.page_table pid = none) := by
  refine ⟨?_, ?_, ?_⟩
  · intro f hf hpin
    unfold BufferPoolManager.DeletePage
    simp only [hf]
    rw [if_pos hpin]
  · intro h
    unfold BufferPoolManager.DeletePage
    simp only [h]
  · intro f hf hpin hlen hev
    obtain ⟨r', hr', hnone⟩ := remove_ok b.replacer f hwf hev
    unfold BufferPoolManager.DeletePage
    simp only [hf, hr']
    rw [if_neg (by omega)]
    refine ⟨_, rfl, ?_, ?_, ?_, ?_⟩
    · show storeLookup r'.node_store f = none
      exact hnone
    · show b.free_list ++ [f] = b.free_list ++ [f]
      rfl
    · show (b.pages.set f _).getD f {} = _
      rw [getD_set_self _ _ _ _ hlen]
      rfl
    · show ptLookup (ptErase b.page_table pid) pid = none
      unfold ptLookup ptErase
      exact alookup_aerase_self _ _

/-- A one-frame pool with an unpinned evictable resident page, instantiating
the C7 hypotheses. -/
def c7Bpm : BufferPoolManager :=
  { pool_size := 1,
    pages := [{ page_id := 0, pin_count := 0, is_dirty := true, data := 9 }],
    page_table := [(0, 0)],
    free_list := [],
    replacer := { replacer_size := 1, k := 2,
                  node_store := [(0, { fid := 0, k := 2, history := [1], is_evictable := true })],
                  st := [(INF_DISTANCE, 1, 0)], time_base_line := 1 } }

/-- Witness for C7: deleting the unpinned resident page succeeds and returns
the frame to the free list. -/
theorem C7_delete_page_witness :
    storeHistWF c7Bpm.replacer = true
    ∧ ptLookup c7Bpm.page_table 0 = some 0
    ∧ (pageOf c7Bpm 0).pin_count = 0
    ∧ (c7Bpm.DeletePage 0).map (fun rb => rb.1) = .ok true
    ∧ (c7Bpm.DeletePage 0).map (fun rb => rb.2.free_list) = .ok [0] := by
  refine ⟨by decide, rfl, by decide, ?_, ?_⟩
  · obtain ⟨b', h1, -⟩ :=
      (C7_delete_page c7Bpm 0 (by decide)).2.2 0 rfl (by decide) (by decide)
        (by intro nd hnd; cases hnd; rfl)
    rw [h1]
    rfl
  · obtain ⟨b', h1, h2, h3, -⟩ :=
      (C7_delete_page c7Bpm 0 (by decide)).2.2 0 rfl (by decide) (by decide)
        (by intro nd hnd; cases hnd; rfl)
    rw [h1]
    simp only [Except.map]
    rw [h3]
    rfl

theorem getVictim_dirty_evict (b : BufferPoolManager) (f : FrameId) (r' : LRUKReplacer)
    (hfree : b.free_list = [])
    (hevict : b.replacer.Evict = (some f, r'))
    (hlen : f < b.pages.length)
    (hdirty : (pageOf b f).is_dirty = true)
    (hpt : ptLookup b.page_table (pageOf b f).page_id = some f) :
    ∃ b4, b.getVictimFrame = .ok (f, b4)
      ∧ b4.disk = diskWrite b.disk (pageOf b f).page_id (pageOf b f).data
      ∧ b4.page_table = ptErase b.page_table (pageOf b f).page_id
      ∧ b4.free_list = []
      ∧ b4.replacer = r'
      ∧ b4.next_page_id = b.next_page_id
      ∧ b4.pages.length = b.pages.length
      ∧ pageOf b4 f = { (pageOf b f) with
          page_id := INVALID_PAGE_ID, pin_count := 0, is_dirty := false, data := 0 } := by
  obtain ⟨ps, pg, pt, fl, rp, np, dk⟩ := b
  have hfree' : fl = [] := hfree
  subst hfree'
  have hevict' : rp.Evict = (some f, r') := hevict
  have hlen' : f < pg.length := hlen
  have hdirty' : (pg.getD f {}).is_dirty = true := hdirty
  have hpt' : ptLookup pt (pg.getD f {}).page_id = some f := hpt
  unfold BufferPoolManager.getVictimFrame BufferPoolManager.FlushPage
  simp only [hevict', pageOf, updPage, hdirty', hpt', if_true]
  refine ⟨_, rfl, rfl, ?_, rfl, rfl, rfl, ?_, ?_⟩
  · rw [getD_set_self _ _ _ _ hlen']
  · simp [List.length_set]
  · rw [getD_set_self _ _ _ _ (by simpa [List.length_set] using hlen')]
    rw [getD_set_self _ _ _ _ hlen']
    rfl

/-- C4: when `NewPage` or `FetchPage` evicts a frame whose current page is
dirty, the frame's bytes are written back to disk (at the evicted page's id)
before the mapping is erased and the memory reset: afterwards the disk holds
the old bytes, the old page id is gone from the page table, and the reused
frame is clean (`is_dirty = false`) with the new page installed. -/
theorem C4_dirty_eviction_writeback
    (b : BufferPoolManager) (f : FrameId) (r' : LRUKReplacer) (pid : PageId)
    (hfree : b.free_list = [])
    (hevict : b.replacer.Evict = (some f, r'))
    (hlen : f < b.pages.length)
    (hdirty : (pageOf b f).is_dirty = true)
    (hpt : ptLookup b.page_table (pageOf b f).page_id = some f)
    (hsize : f ≤ b.replacer.replacer_size)
    (hk : 1 ≤ b.replacer.k)
    (hfreshN : ¬ b.next_page_id = (pageOf b f).page_id)
    (hpid : ptLookup b.page_table pid = none)
    (hpid0 : 0 ≤ pid)
    (hpidOld : ¬ pid = (pageOf b f).page_id) :
    (∃ b', b.NewPage = .ok (some (b.next_page_id, f), b')
        ∧ diskRead b'.disk (pageOf b f).page_id = (pageOf b f).data
        ∧ ptLookup b'.page_table (pageOf b f).page_id = none
        ∧ (pageOf b' f).data = 0
        ∧ (pageOf b' f).is_dirty = false
        ∧ (pageOf b' f).page_id = b.next_page_id
        ∧ (pageOf b' f).pin_count = 1)
    ∧ (∃ b2, b.FetchPage pid = .ok (some f, b2)
        ∧ diskRead b2.disk (pageOf b f).page_id = (pageOf b f).data
        ∧ ptLookup b2.page_table (pageOf b f).page_id = none
        ∧ (pageOf b2 f).data = diskRead b.disk pid
        ∧ (pageOf b2 f).is_dirty = false
        ∧ (pageOf b2 f).page_id = pid
        ∧ (pageOf b2 f).pin_count = 1) := by
  obtain ⟨b4, hgv, hdisk, hptE, hfl, hrep, hnpi, hplen, hpage4⟩ :=
    getVictim_dirty_evict b f r' hfree hevict hlen hdirty hpt
  have hstne : b.replacer.st ≠ [] := (evict_some _ _ _ hevict).1
  have hchk : ¬ (b.page_table.length = b.pool_size ∧ b.replacer.Size = 0) := by
    rintro ⟨-, hsz⟩
    exact hstne (List.length_eq_zero.mp hsz)
  obtain ⟨ps4, pg4, pt4, fl4, rp4, np4, dk4⟩ := b4
  have hdk : dk4 = diskWrite b.disk (pageOf b f).page_id (pageOf b f).data := hdisk
  have hpt4 : pt4 = ptErase b.page_table (pageOf b f).page_id := hptE
  have hrp4 : rp4 = r' := hrep
  have hnp4 : np4 = b.next_page_id := hnpi
  have hpg4len : pg4.length = b.pages.length := hplen
  have hpg4 : pg4.getD f {} = { (pageOf b f) with
      page_id := INVALID_PAGE_ID, pin_count := 0, is_dirty := false, data := 0 } := hpage4
  subst hdk hpt4 hrp4 hnp4
  have hl4 : f < pg4.length := by rw [hpg4len]; exact hlen
  have hstore4 : storeLookup rp4.node_store f = none := (evict_some _ _ _ hevict).2.2.2.1
  have hsz4 : ¬ rp4.replacer_size < f := by
    rw [(evict_some _ _ _ hevict).2.1]
    exact not_lt.mpr hsize
  have hk4 : 1 ≤ rp4.k := by
    rw [(evict_some _ _ _ hevict).2.2.1]
    exact hk
  have hra : rp4.RecordAccess f = .ok { rp4 with
      node_store := storeSet rp4.node_store f
        { fid := f, k := rp4.k, history := [rp4.time_base_line + 1] },
      time_base_line := rp4.time_base_line + 1 } :=
    recordAccess_fresh rp4 f hsz4 hstore4 hk4
  have hse : ({ rp4 with
      node_store := storeSet rp4.node_store f
        { fid := f, k := rp4.k, history := [rp4.time_base_line + 1] },
      time_base_line := rp4.time_base_line + 1 } : LRUKReplacer).SetEvictable f false
      = .ok { rp4 with
      node_store := storeSet rp4.node_store f
        { fid := f, k := rp4.k, history := [rp4.time_base_line + 1] },
      time_base_line := rp4.time_base_line + 1 } :=
    setEvictable_noop _ f _ false (storeLookup_storeSet_self _ _ _) rfl
  have hOldNe : ¬ (pageOf b f).page_id = b.next_page_id :=
    fun hc => hfreshN hc.symm
  have hOldNePid : ¬ (pageOf b f).page_id = pid :=
    fun hc => hpidOld hc.symm
  constructor
  · unfold BufferPoolManager.NewPage
    rw [if_neg hchk]
    simp only [hgv, BufferPoolManager.AllocatePage, updPage, pageOf, hra, hse]
    refine ⟨_, rfl, ?_, ?_, ?_, ?_, ?_, ?_⟩
    · show diskRead (diskWrite b.disk (pageOf b f).page_id (pageOf b f).data)
          (pageOf b f).page_id = (pageOf b f).data
      unfold diskRead diskWrite
      rw [alookup_aset_self]
      rfl
    · show ptLookup (ptSet (ptErase b.page_table (pageOf b f).page_id)
          b.next_page_id f) (pageOf b f).page_id = none
      unfold ptLookup ptSet ptErase
      rw [alookup_aset_ne _ _ _ _ hOldNe]
      exact alookup_aerase_self _ _
    · rw [getD_set_self _ _ _ _ hl4, hpg4]
    · rw [getD_set_self _ _ _ _ hl4, hpg4]
    · rw [getD_set_self _ _ _ _ hl4]
    · rw [getD_set_self _ _ _ _ hl4]
  · unfold BufferPoolManager.FetchPage
    simp only [hpid]
    rw [if_neg (not_or.mpr ⟨hchk, not_lt.mpr hpid0⟩)]
    simp only [hgv, updPage, pageOf, hra, hse]
    refine ⟨_, rfl, ?_, ?_, ?_, ?_, ?_, ?_⟩
    · show diskRead (diskWrite b.disk (pageOf b f).page_id (pageOf b f).data)
          (pageOf b f).page_id = (pageOf b f).data
      unfold diskRead diskWrite
      rw [alookup_aset_self]
      rfl
    · show ptLookup (ptSet (ptErase b.page_table (pageOf b f).page_id) pid f)
          (pageOf b f).page_id = none
      unfold ptLookup ptSet ptErase
      rw [alookup_aset_ne _ _ _ _ hOldNePid]
      exact alookup_aerase_self _ _
    · rw [getD_set_self _ _ _ _ (by simpa [List.length_set] using hl4),
        getD_set_self _ _ _ _ hl4]
      show diskRead (diskWrite b.disk (pageOf b f).page_id (pageOf b f).data) pid
          = diskRead b.disk pid
      unfold diskRead diskWrite
      rw [alookup_aset_ne _ _ _ _ hpidOld]
    · rw [getD_set_self _ _ _ _ (by simpa [List.length_set] using hl4),
        getD_set_self _ _ _ _ hl4, hpg4]
    · rw [getD_set_self _ _ _ _ (by simpa [List.length_set] using hl4)]
    · rw [getD_set_self _ _ _ _ (by simpa [List.length_set] using hl4)]

/-- A full one-frame pool whose only page (id 0, bytes 42) is dirty and
evictable: any `NewPage`/`FetchPage` must evict it with write-back. -/
def c4Bpm : BufferPoolManager :=
  { pool_size := 1,
    pages := [{ page_id := 0, pin_count := 0, is_dirty := true, data := 42 }],
    page_table := [(0, 0)],
    free_list := [],
    replacer := { replacer_size := 1, k := 2,
                  node_store := [(0, { fid := 0, k := 2, history := [1], is_evictable := true })],
                  st := [(INF_DISTANCE, 1, 0)], time_base_line := 1 },
    next_page_id := 1 }

/-- The replacer state after evicting frame 0 from `c4Bpm`. -/
def c4ReplacerAfter : LRUKReplacer :=
  { replacer_size := 1, k := 2, node_store := [], st := [], time_base_line := 1 }

/-- Witness for C4: evicting the dirty page 0 through `NewPage` or
`FetchPage 5` leaves its bytes 42 on disk at page id 0. -/
theorem C4_dirty_eviction_writeback_witness :
    (pageOf c4Bpm 0).is_dirty = true
    ∧ c4Bpm.NewPage.map (fun rb => diskRead rb.2.disk 0) = .ok 42
    ∧ (c4Bpm.FetchPage 5).map (fun rb => diskRead rb.2.disk 0) = .ok 42 := by
  refine ⟨rfl, ?_, ?_⟩
  · obtain ⟨⟨b', h1, h2, -⟩, -⟩ := C4_dirty_eviction_writeback c4Bpm 0 c4ReplacerAfter 5
      rfl (by decide) (by decide) rfl rfl (by decide) (by decide) (by decide) rfl
      (by decide) (by decide)
    rw [h1]
    simp only [Except.map]
    exact congrArg Except.ok h2
  · obtain ⟨-, ⟨b2, h1, h2, -⟩⟩ := C4_dirty_eviction_writeback c4Bpm 0 c4ReplacerAfter 5
      rfl (by decide) (by decide) rfl rfl (by decide) (by decide) (by decide) rfl
      (by decide) (by decide)
    rw [h1]
    simp only [Except.map]
    exact congrArg Except.ok h2

/-- Witness for C2 (amended) at a concrete in-range frame id. -/
theorem C2_record_access_bound_witness :
    1 ≤ c2WitnessR.k ∧ storeKWF c2WitnessR = true
    ∧ exceptOk (c2WitnessR.RecordAccess 1) = true := by
  refine ⟨by decide, by decide, ?_⟩
  obtain ⟨r', hr', -⟩ :=
    (C2_record_access_bound c2WitnessR 1 (by decide) (by decide)).2 (by decide)
  rw [hr']
  rfl

end Bustub
